import Mathlib

/-!
A verification development for the Moltbook scraper's network access layer
(`src/client.py`).  The Python client is shallowly embedded:

* Wall-clock time is modelled in integer tenths of a second (`ℤ`).  Every
  time constant in the code — the 60.0s window, the 0.1s margin, the 30s/300s
  cooldowns, the `base_delay * 2**attempt` backoffs — is an exact multiple of
  0.1s, so this rescaling by 10 represents each of them exactly.  A
  `time.sleep` advances the clock by exactly the slept amount and the network
  call itself is instantaneous.
* The HTTP backend and the `random` module are oracles passed in as
  functions, so every theorem quantifies over all possible backend behaviours
  and random draws.
* Python exceptions are modelled with explicit error sums; a bare
  `except Exception` corresponds to matching every error constructor.

Every definition mirrors the corresponding Python function of
`MoltbookClient`; the theorems below settle the specification's claims
against those definitions.
-/

set_option maxHeartbeats 1000000

namespace Moltbook

/-! ### Constants of `MoltbookClient` (client.py lines 22-32), in deciseconds -/

/-- `RATE_WINDOW = 60.0` seconds — sliding window length (600 ds). -/
def RATE_WINDOW : ℤ := 600

/-- `RATE_THRESHOLD = 90` — proactive threshold (90% of the API limit). -/
def RATE_THRESHOLD : ℕ := 90

/-- `COOLDOWN_BASE = 30` seconds (300 ds). -/
def COOLDOWN_BASE : ℤ := 300

/-- `COOLDOWN_CAP = 300` seconds (3000 ds). -/
def COOLDOWN_CAP : ℤ := 3000

/-- `MAX_CONSECUTIVE_429S = 10`. -/
def MAX_CONSECUTIVE_429S : ℕ := 10

/-! ### Executor state (client.py lines 45, 52-55) -/

/-- The mutable throttle/retry state of one `MoltbookClient`:
`request_count`, `_request_timestamps`, `_consecutive_429s`, `_cooldown_until`.
Timestamps are in deciseconds. -/
structure ExecState where
  requestCount : ℕ
  timestamps : List ℤ
  consecutive429s : ℕ
  cooldownUntil : ℤ
deriving Repr, DecidableEq

/-- The state of a freshly constructed client. -/
def initState : ExecState :=
  { requestCount := 0, timestamps := [], consecutive429s := 0, cooldownUntil := 0 }

/-- The kind of a blocking `time.sleep` performed by the executor. -/
inductive SleepKind where
  | cooldown   -- the cooldown wait at the top of `_enforce_throttle`
  | window     -- the sliding-window wait in `_enforce_throttle`
  | backoff    -- an exponential-backoff sleep between retry attempts
deriving Repr, DecidableEq

/-- Observable events of one `_request` call: sleeps (amount in deciseconds)
and issued attempts. -/
inductive Event where
  | sleep (kind : SleepKind) (amount : ℤ)
  | attempt (idx : ℕ)
deriving Repr, DecidableEq

/-- Typed errors raised by `_request` / `_on_429` (all are `RateLimitError`
or `requests.exceptions.Timeout` in Python; the model distinguishes them). -/
inductive ReqError where
  | timeoutErr
  | rateLimitedRetries (maxRetries : ℕ)          -- "Rate limited after {n} retries (429)"
  | rateLimitExceeded (consecutive total : ℕ)    -- the fatal error from `_on_429`
  | maxRetriesExceeded                           -- the unreachable trailing raise
deriving Repr, DecidableEq

/-- What `_enforce_throttle` leaves behind: the clock after its sleeps, the
trimmed timestamp deque, and the sleeps it performed. -/
structure ThrottleResult where
  now : ℤ
  timestamps : List ℤ
  events : List Event
deriving Repr, DecidableEq

/-- `_enforce_throttle` (client.py lines 57-85).  Step 1 waits out an active
cooldown; step 2 pops timestamps older than `now - RATE_WINDOW` from the
front of the deque; step 3, if at least `RATE_THRESHOLD` entries remain,
sleeps until the oldest entry leaves the window plus a 0.1s (1 ds) margin. -/
def enforceThrottle (s : ExecState) (now : ℤ) : ThrottleResult :=
  let now1 := if now < s.cooldownUntil then s.cooldownUntil else now
  let ev1 : List Event :=
    if now < s.cooldownUntil then [Event.sleep .cooldown (s.cooldownUntil - now)] else []
  let cutoff := now1 - RATE_WINDOW
  let ts := s.timestamps.dropWhile (fun t => decide (t < cutoff))
  if RATE_THRESHOLD ≤ ts.length then
    let oldest := ts.headI
    let sleepTime := oldest + RATE_WINDOW - now1 + 1
    if 0 < sleepTime then
      ⟨now1 + sleepTime, ts, ev1 ++ [Event.sleep .window sleepTime]⟩
    else ⟨now1, ts, ev1⟩
  else ⟨now1, ts, ev1⟩

/-- `_on_429` (client.py lines 87-106).  Increments the consecutive-429
counter (this mutation persists even when the fatal error is raised); at
`MAX_CONSECUTIVE_429S` raises `RateLimitError` carrying the counter and the
session request count; from 3 on, sets
`cooldown_until = now + min(COOLDOWN_BASE * 2^(count-3), COOLDOWN_CAP)`. -/
def on429 (s : ExecState) (now : ℤ) : ExecState × Option ReqError :=
  let s1 := { s with consecutive429s := s.consecutive429s + 1 }
  if MAX_CONSECUTIVE_429S ≤ s1.consecutive429s then
    (s1, some (.rateLimitExceeded s1.consecutive429s s1.requestCount))
  else if 3 ≤ s1.consecutive429s then
    let cooldown := min (COOLDOWN_BASE * 2 ^ (s1.consecutive429s - 3)) COOLDOWN_CAP
    ({ s1 with cooldownUntil := now + cooldown }, none)
  else (s1, none)

/-- `_on_success` (client.py lines 108-111): reset the counter, append the
current time to the sliding window. -/
def onSuccess (s : ExecState) (now : ℤ) : ExecState :=
  { s with consecutive429s := 0, timestamps := s.timestamps ++ [now] }

/-- The network's answer to one attempt: a timeout exception or a status. -/
inductive AttemptOutcome where
  | timeout
  | status (code : ℕ)
deriving Repr, DecidableEq

/-- The outcome of `_request`: a returned response (its status code) or a
raised error. -/
inductive ReqResult where
  | resp (code : ℕ)
  | err (e : ReqError)
deriving Repr, DecidableEq

/-- Everything one `_request` call produces: outcome, final state, final
clock, and the chronological event log. -/
structure ReqRun where
  result : ReqResult
  state : ExecState
  now : ℤ
  events : List Event
deriving Repr, DecidableEq

/-- The retry loop of `_request` (client.py lines 120-164), one iteration of
`for attempt in range(self.max_retries + 1)` per recursive step.  `responses`
is the backend oracle giving each attempt's outcome, `baseDelay` is
`base_delay` in deciseconds, and `remaining` counts the loop iterations still
allowed (it starts at `maxRetries + 1`). -/
def requestLoop (responses : ℕ → AttemptOutcome) (maxRetries : ℕ) (baseDelay : ℤ) :
    ℕ → ℕ → ExecState → ℤ → List Event → ReqRun
  | _, 0, s, now, log => ⟨.err .maxRetriesExceeded, s, now, log⟩
  | attemptIdx, r + 1, s, now, log =>
    let th := enforceThrottle s now
    let s1 : ExecState :=
      { s with timestamps := th.timestamps, requestCount := s.requestCount + 1 }
    let log1 := log ++ th.events ++ [Event.attempt attemptIdx]
    match responses attemptIdx with
    | .timeout =>
      if attemptIdx < maxRetries then
        let d := baseDelay * 2 ^ attemptIdx
        requestLoop responses maxRetries baseDelay (attemptIdx + 1) r s1 (th.now + d)
          (log1 ++ [Event.sleep .backoff d])
      else ⟨.err .timeoutErr, s1, th.now, log1⟩
    | .status code =>
      if code = 429 then
        match on429 s1 th.now with
        | (s2, some e) => ⟨.err e, s2, th.now, log1⟩
        | (s2, none) =>
          if attemptIdx < maxRetries then
            let d := baseDelay * 2 ^ attemptIdx
            requestLoop responses maxRetries baseDelay (attemptIdx + 1) r s2 (th.now + d)
              (log1 ++ [Event.sleep .backoff d])
          else ⟨.err (.rateLimitedRetries maxRetries), s2, th.now, log1⟩
      else if 500 ≤ code then
        if attemptIdx < maxRetries then
          let d := baseDelay * 2 ^ attemptIdx
          requestLoop responses maxRetries baseDelay (attemptIdx + 1) r s1 (th.now + d)
            (log1 ++ [Event.sleep .backoff d])
        else ⟨.resp code, onSuccess s1 th.now, th.now, log1⟩
      else ⟨.resp code, onSuccess s1 th.now, th.now, log1⟩

/-- `_request` (client.py lines 113-164): run the retry loop from attempt 0. -/
def pyRequest (responses : ℕ → AttemptOutcome) (maxRetries : ℕ) (baseDelay : ℤ)
    (s : ExecState) (now : ℤ) : ReqRun :=
  requestLoop responses maxRetries baseDelay 0 (maxRetries + 1) s now []

/-! ### Streaming pagination collector
(`fetch_submolts_streaming`, client.py lines 196-281, and
`fetch_posts_streaming`, lines 326-409).

The two functions are the same algorithm; they differ only in the identity
key (`s.get("name")` vs `p.get("id")`), the nudge added to the offset on an
empty page (1000 vs 500) and the bound of the random offset jump (20000 vs
100000).  `streamLoop` is that common algorithm, parameterized accordingly.
(One further inessential difference: the posts variant parses the response
JSON after its `try` block, so a JSON decode failure there would propagate;
the fetch oracle below models the outcome of the guarded fetch, and no claim
depends on that difference.)

The backend is the oracle `fetch callIdx offset`, giving, for the
`callIdx`-th request of the run, either the parsed page (the try-block
succeeded) or the exception the try-block raised (`requests` errors,
`raise_for_status`, JSON errors, and any `RateLimitError` propagating out of
`_request` — the Python code catches all of them with one bare
`except Exception`).  `rand` is the stream of values drawn from
`random.randint`, clamped to the inclusive upper bound the code passes.
The `while True` loop runs on fuel; `none` means the loop was still running
after `fuel` iterations. -/

/-- The local variables of one streaming-collection run, plus the log of
`on_page(page, newRecords)` callback invocations made so far. -/
structure CollectState (ρ κ : Type) where
  total : ℕ
  offset : ℕ
  page : ℕ
  seen : List κ
  stalePages : ℕ
  consecutiveErrors : ℕ
  randIdx : ℕ
  emitted : List (ℕ × List ρ)
deriving Repr, DecidableEq

/-- The collector state at the top of the `while True` loop. -/
def initCollect {ρ κ : Type} : CollectState ρ κ :=
  { total := 0, offset := 0, page := 0, seen := [], stalePages := 0,
    consecutiveErrors := 0, randIdx := 0, emitted := [] }

/-- What one iteration of the `while True` loop decides: `stop` is a
`break`/`return` leaving the loop with the given state, `next` is a
`continue` or fall-through to the next iteration. -/
inductive StepOut (ρ κ : Type) where
  | stop (st : CollectState ρ κ)
  | next (st : CollectState ρ κ)
deriving Repr, DecidableEq

/-- The state one iteration ends in, whether it stops or continues. -/
def StepOut.state {ρ κ : Type} : StepOut ρ κ → CollectState ρ κ
  | .stop st => st
  | .next st => st

/-- One iteration of the streaming loop body, given the outcome
`fetchResult` of this iteration's guarded page fetch. -/
def streamStep {ρ κ : Type} [DecidableEq κ] (keyOf : ρ → κ)
    (emptyNudge jumpBound pageSize : ℕ) (rand : ℕ → ℕ)
    (targetCount maxStalePages : ℕ)
    (fetchResult : Except ReqError (List ρ)) (st : CollectState ρ κ) :
    StepOut ρ κ :=
  match fetchResult with
  | .error _ =>
    -- `except Exception:` — count the failure, maybe give up, else jump to a
    -- random offset (`random.randint(0, max(target_count, bound))`), sleep
    -- `base_delay * consecutive_errors`, and retry.
    let ce := st.consecutiveErrors + 1
    if 10 ≤ ce then .stop { st with consecutiveErrors := ce }
    else
      .next { st with consecutiveErrors := ce,
                      offset := min (rand st.randIdx) (max targetCount jumpBound),
                      randIdx := st.randIdx + 1 }
  | .ok records =>
    let st0 := { st with consecutiveErrors := 0 }
    if records.isEmpty then
      if 0 < targetCount ∧ st0.total < targetCount then
        let st1 := { st0 with offset := (st0.offset + emptyNudge) % (targetCount * 2),
                              stalePages := st0.stalePages + 1 }
        if maxStalePages ≤ st1.stalePages then .stop st1
        else .next st1
      else .stop st0
    else
      let newRecs := records.filter (fun r => decide (keyOf r ∉ st0.seen))
      let st1 :=
        if newRecs.isEmpty then { st0 with stalePages := st0.stalePages + 1 }
        else
          { st0 with page := st0.page + 1,
                     emitted := st0.emitted ++ [(st0.page + 1, newRecs)],
                     total := st0.total + newRecs.length,
                     seen := st0.seen ++ newRecs.map keyOf,
                     stalePages := 0 }
      if 0 < targetCount ∧ targetCount ≤ st1.total then .stop st1
      else if maxStalePages ≤ st1.stalePages then .stop st1
      else
        .next (if 2 * newRecs.length < records.length then
          { st1 with offset := min (rand st1.randIdx) (max targetCount jumpBound),
                     randIdx := st1.randIdx + 1 }
        else { st1 with offset := st1.offset + pageSize })

/-- The `while True` loop: one `streamStep` per iteration, the `callIdx`-th
iteration fetching at the current offset through the oracle.  `some st` is a
`break`/`return` with final state `st`; `none` means the loop was still
running after `fuel` iterations. -/
def streamLoop {ρ κ : Type} [DecidableEq κ] (keyOf : ρ → κ)
    (emptyNudge jumpBound pageSize : ℕ)
    (fetch : ℕ → ℕ → Except ReqError (List ρ)) (rand : ℕ → ℕ)
    (targetCount maxStalePages : ℕ) :
    ℕ → ℕ → CollectState ρ κ → Option (CollectState ρ κ)
  | 0, _, _ => none
  | fuel + 1, callIdx, st =>
    match streamStep keyOf emptyNudge jumpBound pageSize rand targetCount
        maxStalePages (fetch callIdx st.offset) st with
    | .stop st' => some st'
    | .next st' =>
      streamLoop keyOf emptyNudge jumpBound pageSize fetch rand targetCount
        maxStalePages fuel (callIdx + 1) st'

/-- `fetch_submolts_streaming` (client.py lines 196-281): the collector keyed
by `s.get("name")`, empty-page nudge 1000, random-jump bound 20000, page
size 100. -/
def fetch_submolts_streaming {ρ κ : Type} [DecidableEq κ] (nameOf : ρ → κ)
    (fetch : ℕ → ℕ → Except ReqError (List ρ)) (rand : ℕ → ℕ)
    (targetCount maxStalePages fuel : ℕ) : Option (CollectState ρ κ) :=
  streamLoop nameOf 1000 20000 100 fetch rand targetCount maxStalePages fuel 0 initCollect

/-- `fetch_posts_streaming` (client.py lines 326-409): the collector keyed by
`p.get("id")`, empty-page nudge 500, random-jump bound 100000, page size
100. -/
def fetch_posts_streaming {ρ κ : Type} [DecidableEq κ] (idOf : ρ → κ)
    (fetch : ℕ → ℕ → Except ReqError (List ρ)) (rand : ℕ → ℕ)
    (targetCount maxStalePages fuel : ℕ) : Option (CollectState ρ κ) :=
  streamLoop idOf 500 100000 100 fetch rand targetCount maxStalePages fuel 0 initCollect

/-- The keys of all records delivered to `on_page` during a run, one list
entry per delivered record occurrence, in delivery order. -/
def emittedKeys {ρ κ : Type} (keyOf : ρ → κ) (st : CollectState ρ κ) : List κ :=
  (st.emitted.map (fun pr => pr.2.map keyOf)).flatten

/-! ### Facade single-call operations -/

/-- The outcome, as seen by a facade method, of its `self._request(...)`
call: a raised error, or a response with its status code and parsed JSON
body. -/
inductive ReqOutcome (β : Type) where
  | err (e : ReqError)
  | resp (code : ℕ) (body : β)
deriving Repr, DecidableEq

/-- `requests.Response.raise_for_status` raises for any 4xx or 5xx code. -/
def raisesForStatus (code : ℕ) : Bool :=
  decide (400 ≤ code ∧ code < 600)

/-- Python exceptions that escape a facade method. -/
inductive PyError where
  | req (e : ReqError)        -- propagated from `_request`
  | httpStatus (code : ℕ)     -- `requests.HTTPError` from `raise_for_status`
  | keyError                  -- `KeyError` from a `data[...]` access
  | unboundLocal              -- `UnboundLocalError`
deriving Repr, DecidableEq

/-- JSON body of `/submolts/{name}/moderators`: `data.get("moderators", [])`. -/
structure ModeratorsPayload (μ : Type) where
  moderators : List μ
deriving Repr, DecidableEq

/-- `fetch_submolt_moderators` (client.py lines 455-468): inside one big
`try`, a 404 returns `[]`, `raise_for_status` raises on other 4xx/5xx, and
the `except Exception` turns every raised error (including any
`RateLimitError` out of `_request`) into `[]`. -/
def fetch_submolt_moderators {μ : Type} (r : ReqOutcome (ModeratorsPayload μ)) :
    List μ :=
  match r with
  | .err _ => []
  | .resp code body =>
    if code = 404 then []
    else if raisesForStatus code then []
    else body.moderators

/-- JSON body of `/agents/profile`: `data.get("success", False)` and the
`data["agent"]` entry (`none` when the key is absent). -/
structure AgentPayload (α : Type) where
  success : Bool
  agent : Option α
deriving Repr, DecidableEq

/-- `fetch_agent_profile` (client.py lines 411-422): `raise_for_status`
first (so any 4xx, including 404, raises), then `success == False` maps to
`None`, then `data["agent"]` is returned (raising `KeyError` if absent). -/
def fetch_agent_profile {α : Type} (r : ReqOutcome (AgentPayload α)) :
    Except PyError (Option α) :=
  match r with
  | .err e => .error (.req e)
  | .resp code body =>
    if raisesForStatus code then .error (.httpStatus code)
    else if body.success then
      match body.agent with
      | some a => .ok (some a)
      | none => .error .keyError
    else .ok none

/-- JSON body of `/posts/{id}`: `data.get("success", False)`,
`data.get("post")` and `data.get("comments", [])`. -/
structure PostPayload (π γ : Type) where
  success : Bool
  post : Option π
  comments : List γ
deriving Repr, DecidableEq

/-- `fetch_post_with_comments` (client.py lines 470-485): a 404 returns
`None` before `raise_for_status`; a false success flag returns `None`;
otherwise the post/comments pair is returned. -/
def fetch_post_with_comments {π γ : Type} (r : ReqOutcome (PostPayload π γ)) :
    Except PyError (Option (Option π × List γ)) :=
  match r with
  | .err e => .error (.req e)
  | .resp code body =>
    if code = 404 then .ok none
    else if raisesForStatus code then .error (.httpStatus code)
    else if body.success then .ok (some (body.post, body.comments))
    else .ok none

/-- JSON body of `/stats` after the `data.get(k, 0)` defaults: the four
numeric fields of the stats dict. -/
structure StatsPayload where
  agents : ℤ
  submolts : ℤ
  posts : ℤ
  comments : ℤ
deriving Repr, DecidableEq

/-- The retry loop of `fetch_platform_stats` (client.py lines 424-453), one
Python iteration of `for attempt in range(max_retries)` per step.  The third
argument carries the current value of the local variable `stats` (`none`
while unassigned); after the loop, `return stats` raises
`UnboundLocalError` when it was never assigned.  The inter-attempt
`time.sleep` is irrelevant here and not tracked. -/
def statsLoop (responses : ℕ → ReqOutcome StatsPayload) :
    ℕ → ℕ → Option StatsPayload → Except PyError StatsPayload
  | _, 0, none => .error .unboundLocal
  | _, 0, some stats => .ok stats
  | attemptIdx, r + 1, _ =>
    match responses attemptIdx with
    | .err e => .error (.req e)
    | .resp code body =>
      if raisesForStatus code then .error (.httpStatus code)
      else if 0 < body.agents ∧ 0 < body.submolts ∧ 0 < body.posts ∧ 0 < body.comments
      then .ok body
      else statsLoop responses (attemptIdx + 1) r (some body)

/-- `fetch_platform_stats` (client.py lines 424-453): run the retry loop
from attempt 0 with the local `stats` unassigned; `maxRetries` is the
method's own `max_retries` parameter (default 10). -/
def fetch_platform_stats (responses : ℕ → ReqOutcome StatsPayload)
    (maxRetries : ℕ) : Except PyError StatsPayload :=
  statsLoop responses 0 maxRetries none

/-! ### Scenario harnesses and observation helpers -/

/-- Whether an event is a blocking sleep. -/
def Event.isSleep : Event → Bool
  | .sleep _ _ => true
  | .attempt _ => false

/-- A `_request` outcome that raises nothing: a response whose status code
`raise_for_status` accepts. -/
def ReqOutcome.isGood {β : Type} : ReqOutcome β → Bool
  | .err _ => false
  | .resp code _ => !raisesForStatus code

/-- Whether a facade call returned normally (did not raise). -/
def isOkResult {ε α : Type} : Except ε α → Bool
  | .ok _ => true
  | .error _ => false

/-- A sequence of successful requests driven through the full executor: each
request is a `pyRequest` against a backend answering 200, issued at the
later of its scheduled wall-clock time and the clock left by the previous
requests' sleeps.  Returns the final state, the final clock, and the
concatenated event log. -/
def runSuccessSeq (maxRetries : ℕ) (baseDelay : ℤ) :
    List ℤ → ExecState → ℤ → ExecState × ℤ × List Event
  | [], s, clock => (s, clock, [])
  | t :: rest, s, clock =>
    let run := pyRequest (fun _ => .status 200) maxRetries baseDelay s (max t clock)
    let (s2, c2, evs) := runSuccessSeq maxRetries baseDelay rest run.state run.now
    (s2, c2, run.events ++ evs)

/-! ## Theorems -/

/-- C6: for a consecutive-429 count `n = s.consecutive429s + 1` reached by
this 429, if `3 ≤ n ≤ 9` the handler sets
`cooldown_until = now + min(COOLDOWN_BASE * 2^(n-3), COOLDOWN_CAP)` (in
deciseconds: `min(300 * 2^(n-3), 3000)`, i.e. 30,60,120,240,300,300,300
seconds for n = 3..9) and raises nothing; if `n < 3` it leaves the cooldown
deadline untouched and raises nothing. -/
theorem cooldown_escalation_formula (s : ExecState) (now : ℤ) :
    (3 ≤ s.consecutive429s + 1 → s.consecutive429s + 1 ≤ 9 →
      on429 s now =
        ({ s with consecutive429s := s.consecutive429s + 1,
                  cooldownUntil :=
                    now + min (COOLDOWN_BASE * 2 ^ (s.consecutive429s + 1 - 3))
                      COOLDOWN_CAP },
         none))
    ∧ (s.consecutive429s + 1 < 3 →
      on429 s now = ({ s with consecutive429s := s.consecutive429s + 1 }, none)) := by
  simp only [on429, MAX_CONSECUTIVE_429S]
  constructor
  · intro h3 h9
    rw [if_neg (by omega), if_pos h3]
  · intro h
    rw [if_neg (by omega), if_neg (by omega)]

/-- Witness for C6: a 5th consecutive 429 sets a 120s (1200 ds) cooldown; a
2nd consecutive 429 leaves the deadline unchanged. -/
theorem cooldown_escalation_formula_witness :
    on429 ⟨7, [], 4, 0⟩ 100 =
      ({ requestCount := 7, timestamps := [], consecutive429s := 5,
         cooldownUntil := 1300 }, none)
    ∧ on429 ⟨7, [], 1, 50⟩ 100 =
      ({ requestCount := 7, timestamps := [], consecutive429s := 2,
         cooldownUntil := 50 }, none) :=
  ⟨((cooldown_escalation_formula ⟨7, [], 4, 0⟩ 100).1 (by decide) (by decide)).trans
      (by decide),
   ((cooldown_escalation_formula ⟨7, [], 1, 50⟩ 100).2 (by decide)).trans (by decide)⟩

/-- C5: when the consecutive-429 counter stands at 9 and the next attempt
answers 429 (the 10th consecutive 429), the retry loop raises the fatal
`RateLimitError` carrying the session's total request count.  The returned
log extends the incoming one by only the throttle events and this attempt's
event: no backoff sleep follows the fatal 429 and no further attempt is
issued (the loop result is the raised error, not a recursive call). -/
theorem tenth_consecutive_429_fatal
    (responses : ℕ → AttemptOutcome) (maxRetries : ℕ) (baseDelay : ℤ)
    (attemptIdx r : ℕ) (s : ExecState) (now : ℤ) (log : List Event)
    (h9 : s.consecutive429s = 9) (h429 : responses attemptIdx = .status 429) :
    requestLoop responses maxRetries baseDelay attemptIdx (r + 1) s now log =
      ⟨.err (.rateLimitExceeded 10 (s.requestCount + 1)),
       { requestCount := s.requestCount + 1,
         timestamps := (enforceThrottle s now).timestamps,
         consecutive429s := 10,
         cooldownUntil := s.cooldownUntil },
       (enforceThrottle s now).now,
       log ++ (enforceThrottle s now).events ++ [Event.attempt attemptIdx]⟩ := by
  simp only [requestLoop, h429, on429, h9]
  norm_num [MAX_CONSECUTIVE_429S]

/-- Witness for C5: a fresh session that has already seen nine consecutive
429s fails fatally on the tenth, with the attempt event last in the log. -/
theorem tenth_consecutive_429_fatal_witness :
    requestLoop (fun _ => AttemptOutcome.status 429) 5 20 0 (5 + 1) ⟨9, [], 9, 0⟩ 0 [] =
      ⟨.err (.rateLimitExceeded 10 10), ⟨10, [], 10, 0⟩, 0, [Event.attempt 0]⟩ :=
  (tenth_consecutive_429_fatal (fun _ => AttemptOutcome.status 429) 5 20 0 5
    ⟨9, [], 9, 0⟩ 0 [] (by decide) (by decide)).trans (by decide)

/-- Loop invariant for C10: with a backend that never raises, the stats
retry loop returns normally whenever it still has an iteration left or a
best-effort value in hand. -/
theorem statsLoop_returns (responses : ℕ → ReqOutcome StatsPayload)
    (hgood : ∀ i, (responses i).isGood = true) :
    ∀ (r attemptIdx : ℕ) (cur : Option StatsPayload), (cur ≠ none ∨ 1 ≤ r) →
      isOkResult (statsLoop responses attemptIdx r cur) = true := by
  intro r
  induction r with
  | zero =>
    intro attemptIdx cur h
    match cur with
    | none => simp at h
    | some stats => simp [statsLoop, isOkResult]
  | succ n ih =>
    intro attemptIdx cur _
    have hg := hgood attemptIdx
    cases hr : responses attemptIdx with
    | err e => rw [hr] at hg; simp [ReqOutcome.isGood] at hg
    | resp code body =>
      rw [hr] at hg
      simp only [ReqOutcome.isGood, Bool.not_eq_true'] at hg
      simp only [statsLoop, hr, hg, Bool.false_eq_true, if_false]
      split
      · simp [isOkResult]
      · exact ih (attemptIdx + 1) (some body) (Or.inl (by simp))

/-- C10: `fetch_platform_stats` called with `max_retries = 0` skips the loop
body entirely and the trailing `return stats` raises `UnboundLocalError`,
for every backend; with `max_retries ≥ 1` and a backend whose responses
never raise, the call returns a stats dict normally. -/
theorem platform_stats_retry_budget_precondition :
    (∀ responses : ℕ → ReqOutcome StatsPayload,
        fetch_platform_stats responses 0 = .error .unboundLocal)
    ∧ ∀ (responses : ℕ → ReqOutcome StatsPayload) (maxRetries : ℕ),
        1 ≤ maxRetries → (∀ i, (responses i).isGood = true) →
        isOkResult (fetch_platform_stats responses maxRetries) = true := by
  constructor
  · intro responses
    simp [fetch_platform_stats, statsLoop]
  · intro responses maxRetries h1 hgood
    exact statsLoop_returns responses hgood maxRetries 0 none (Or.inr h1)

/-- Witness for C10: with one retry allowed and an all-zero (but non-raising)
stats endpoint, the call still returns normally, and with zero retries it
raises `UnboundLocalError`. -/
theorem platform_stats_retry_budget_precondition_witness :
    fetch_platform_stats (fun _ => .resp 200 ⟨0, 5, 9, 3⟩) 0 = .error .unboundLocal
    ∧ isOkResult (fetch_platform_stats (fun _ => .resp 200 ⟨0, 5, 9, 3⟩) 1) = true :=
  ⟨platform_stats_retry_budget_precondition.1 _,
   platform_stats_retry_budget_precondition.2 (fun _ => .resp 200 ⟨0, 5, 9, 3⟩) 1
     (by decide) (fun _ => rfl)⟩

/-- C8 counterexample: `fetch_agent_profile` does not treat HTTP 404 as
not-found.  It calls `raise_for_status` before any check, so a 404 response
(here with a truthy payload) raises `requests.HTTPError` instead of
returning `None`. -/
theorem agent_profile_404_raises :
    fetch_agent_profile (ReqOutcome.resp 404 (⟨true, some 0⟩ : AgentPayload ℕ))
        = .error (.httpStatus 404)
    ∧ fetch_agent_profile (ReqOutcome.resp 404 (⟨true, some 0⟩ : AgentPayload ℕ))
        ≠ .ok none := by
  have h1 : fetch_agent_profile (ReqOutcome.resp 404 (⟨true, some 0⟩ : AgentPayload ℕ))
      = .error (.httpStatus 404) := rfl
  exact ⟨h1, by rw [h1]; exact fun h => Except.noConfusion h⟩

/-- C8 amended: `fetch_post_with_comments` treats HTTP 404 as not-found
(returns `None`) and treats a false payload success flag the same way, and
`fetch_agent_profile` treats a false success flag as not-found — but
`fetch_agent_profile` raises `requests.HTTPError` on HTTP 404 instead of
returning `None`. -/
theorem single_record_not_found_handling {α π γ : Type}
    (code : ℕ) (bodyA : AgentPayload α) (bodyP : PostPayload π γ) :
    fetch_post_with_comments (ReqOutcome.resp 404 bodyP) = .ok none
    ∧ (bodyP.success = false → raisesForStatus code = false →
        fetch_post_with_comments (ReqOutcome.resp code bodyP) = .ok none)
    ∧ (bodyA.success = false → raisesForStatus code = false →
        fetch_agent_profile (ReqOutcome.resp code bodyA) = .ok none)
    ∧ fetch_agent_profile (ReqOutcome.resp 404 bodyA) = .error (.httpStatus 404) := by
  refine ⟨rfl, ?_, ?_, ?_⟩
  · intro hs hr
    by_cases h404 : code = 404
    · simp [fetch_post_with_comments, h404]
    · simp [fetch_post_with_comments, h404, hr, hs]
  · intro hs hr
    simp [fetch_agent_profile, hr, hs]
  · simp [fetch_agent_profile, raisesForStatus]

/-- Witness for C8 amended: a 404 post fetch and false-success payloads at
status 200 return `None`; a 404 agent-profile fetch raises. -/
theorem single_record_not_found_handling_witness :
    fetch_post_with_comments (ReqOutcome.resp 404 (⟨false, none, []⟩ : PostPayload ℕ ℕ))
        = .ok none
    ∧ fetch_post_with_comments (ReqOutcome.resp 200 (⟨false, none, []⟩ : PostPayload ℕ ℕ))
        = .ok none
    ∧ fetch_agent_profile (ReqOutcome.resp 200 (⟨false, none⟩ : AgentPayload ℕ))
        = .ok none
    ∧ fetch_agent_profile (ReqOutcome.resp 404 (⟨false, none⟩ : AgentPayload ℕ))
        = .error (.httpStatus 404) :=
  have h := single_record_not_found_handling (α := ℕ) (π := ℕ) (γ := ℕ) 200
    ⟨false, none⟩ ⟨false, none, []⟩
  ⟨h.1, h.2.1 rfl (by decide), h.2.2.1 rfl (by decide), h.2.2.2⟩

/-- C7 counterexample: in the scenario base_delay = 2.0s (20 ds),
max_retries = 5, three 429s then a 200, the sleeps are not only the backoff
sleeps of 2s, 4s and 8s: the third 429 starts a 30s cooldown, of which only
8s elapse during the third backoff, so the throttle blocks a further 22s
(220 ds) before the fourth attempt. -/
theorem backoff_scenario_extra_cooldown_wait :
    ((pyRequest (fun i => if i < 3 then .status 429 else .status 200) 5 20
        initState 0).events.filter Event.isSleep) =
      [.sleep .backoff 20, .sleep .backoff 40, .sleep .backoff 80,
       .sleep .cooldown 220] := by
  decide

/-- C7 amended: in that scenario the executor makes exactly 4 attempts, the
backoff sleeps are 2s, 4s and 8s (20, 40, 80 ds), an additional 22s (220 ds)
cooldown wait precedes the fourth attempt, and the consecutive-429 counter
is 0 after the call returns. -/
theorem backoff_scenario_run :
    pyRequest (fun i => if i < 3 then .status 429 else .status 200) 5 20 initState 0 =
      ⟨.resp 200,
       { requestCount := 4, timestamps := [360], consecutive429s := 0,
         cooldownUntil := 360 },
       360,
       [.attempt 0, .sleep .backoff 20, .attempt 1, .sleep .backoff 40,
        .attempt 2, .sleep .backoff 80, .sleep .cooldown 220, .attempt 3]⟩ := by
  decide

/-- C4 counterexample: the final exhausted-5xx attempt — a path that does
not end in a successful request, since the 500 response is returned only
for caller inspection — still runs `_on_success` and appends a timestamp to
the sliding window. -/
theorem exhausted_5xx_appends_timestamp :
    (pyRequest (fun _ => .status 500) 0 10 initState 5).result = .resp 500
    ∧ (pyRequest (fun _ => .status 500) 0 10 initState 5).state.timestamps = [5]
    ∧ initState.timestamps = [] := by
  decide

/-- C2 counterexample: the fatal `RateLimitError` (raised after 10
consecutive 429s inside `_request`) does not terminate a streaming run and
is not propagated.  Concretely, a backend whose first fetch raises exactly
that error and then serves a one-record page: the collector's bare
`except Exception` counts the fatal error as one retryable consecutive
failure, keeps issuing requests, delivers the record, and returns total 1
— and `fetch_submolt_moderators` swallows the same fatal error into `[]`. -/
theorem fatal_rate_limit_swallowed_by_callers :
    (fetch_submolts_streaming (id : ℕ → ℕ)
        (fun i _ => if i = 0 then .error (.rateLimitExceeded 10 37) else .ok [1])
        (fun _ => 0) 0 1 3).map CollectState.total = some 1
    ∧ (fetch_submolts_streaming (id : ℕ → ℕ)
        (fun i _ => if i = 0 then .error (.rateLimitExceeded 10 37) else .ok [1])
        (fun _ => 0) 0 1 3).map CollectState.emitted = some [(1, [1])]
    ∧ fetch_submolt_moderators
        (ReqOutcome.err (.rateLimitExceeded 10 37) : ReqOutcome (ModeratorsPayload ℕ))
        = [] := by
  decide

/-- C2 amended: when `_request` raises the fatal rate-limit error, the
streaming collectors catch it like any other fetch error — below 10
accumulated consecutive errors the loop continues with a fresh random
offset (a retry) instead of propagating — and `fetch_submolt_moderators`
swallows it into an empty list.  The error therefore does not terminate a
streaming run. -/
theorem fatal_rate_limit_retried_by_collectors {ρ κ μ : Type} [DecidableEq κ]
    (keyOf : ρ → κ) (emptyNudge jumpBound pageSize : ℕ)
    (fetch : ℕ → ℕ → Except ReqError (List ρ)) (rand : ℕ → ℕ)
    (targetCount maxStalePages fuel callIdx : ℕ) (st : CollectState ρ κ) (c t : ℕ)
    (hfetch : fetch callIdx st.offset = .error (.rateLimitExceeded c t))
    (hce : st.consecutiveErrors + 1 < 10) :
    streamLoop keyOf emptyNudge jumpBound pageSize fetch rand targetCount maxStalePages
        (fuel + 1) callIdx st =
      streamLoop keyOf emptyNudge jumpBound pageSize fetch rand targetCount maxStalePages
        fuel (callIdx + 1)
        { st with consecutiveErrors := st.consecutiveErrors + 1,
                  offset := min (rand st.randIdx) (max targetCount jumpBound),
                  randIdx := st.randIdx + 1 }
    ∧ fetch_submolt_moderators
        (ReqOutcome.err (.rateLimitExceeded c t) : ReqOutcome (ModeratorsPayload μ))
        = [] := by
  constructor
  · simp only [streamLoop, hfetch, streamStep]
    rw [if_neg (by omega)]
  · rfl

/-- Witness for C2 amended: the fatal error at the first call of a run makes
the collector retry at the random offset, and the moderators fetch returns
`[]` on it. -/
theorem fatal_rate_limit_retried_by_collectors_witness :
    streamLoop (id : ℕ → ℕ) 1000 20000 100
        (fun i _ => if i = 0 then .error (.rateLimitExceeded 10 37) else .ok [1])
        (fun _ => 0) 0 1 3 0 initCollect =
      streamLoop (id : ℕ → ℕ) 1000 20000 100
        (fun i _ => if i = 0 then .error (.rateLimitExceeded 10 37) else .ok [1])
        (fun _ => 0) 0 1 2 1
        { (initCollect : CollectState ℕ ℕ) with
            consecutiveErrors := (initCollect : CollectState ℕ ℕ).consecutiveErrors + 1,
            offset := min ((fun _ => 0) (initCollect : CollectState ℕ ℕ).randIdx) (max 0 20000),
            randIdx := (initCollect : CollectState ℕ ℕ).randIdx + 1 }
    ∧ fetch_submolt_moderators
        (ReqOutcome.err (.rateLimitExceeded 10 37) : ReqOutcome (ModeratorsPayload ℕ))
        = [] :=
  fatal_rate_limit_retried_by_collectors (id : ℕ → ℕ) 1000 20000 100
    (fun i _ => if i = 0 then .error (.rateLimitExceeded 10 37) else .ok [1])
    (fun _ => 0) 0 1 2 0 initCollect 10 37 rfl (by decide)

/-- `_enforce_throttle` only pops entries from the front of the window: its
resulting deque is a suffix of the incoming one. -/
theorem enforceThrottle_timestamps_suffix (s : ExecState) (now : ℤ) :
    (enforceThrottle s now).timestamps.IsSuffix s.timestamps := by
  simp only [enforceThrottle]
  split_ifs <;> exact List.dropWhile_suffix _

/-- `_on_429` never touches the sliding window. -/
theorem on429_timestamps (s : ExecState) (now : ℤ) :
    (on429 s now).1.timestamps = s.timestamps := by
  simp only [on429]
  split_ifs <;> rfl

/-- C4 amended: the sliding window receives a new timestamp exactly on the
execution paths of `_request` that return a response — which includes the
final exhausted-5xx attempt (see the counterexample) — and on every path
that raises (timeout exhausted, 429 exhausted, fatal rate-limit abort) the
final window is a suffix of the incoming one: entries may be purged by the
admission check, but nothing is ever appended. -/
theorem window_append_only_on_returned_response
    (responses : ℕ → AttemptOutcome) (maxRetries : ℕ) (baseDelay : ℤ) :
    ∀ (r attemptIdx : ℕ) (s : ExecState) (now : ℤ) (log : List Event),
      (∀ e, (requestLoop responses maxRetries baseDelay attemptIdx r s now log).result
            = .err e →
          (requestLoop responses maxRetries baseDelay attemptIdx r s now
            log).state.timestamps.IsSuffix s.timestamps)
      ∧ (∀ code,
          (requestLoop responses maxRetries baseDelay attemptIdx r s now log).result
            = .resp code →
          ∃ pre, pre.IsSuffix s.timestamps ∧
            (requestLoop responses maxRetries baseDelay attemptIdx r s now
              log).state.timestamps
              = pre ++ [(requestLoop responses maxRetries baseDelay attemptIdx r s now
                  log).now]) := by
  intro r
  induction r with
  | zero =>
    intro attemptIdx s now log
    constructor
    · intro e _
      exact List.suffix_refl _
    · intro code h
      exact absurd h (by simp [requestLoop])
  | succ n ih =>
    intro attemptIdx s now log
    have hth := enforceThrottle_timestamps_suffix s now
    cases hresp : responses attemptIdx with
    | timeout =>
      by_cases hlt : attemptIdx < maxRetries
      · simp only [requestLoop, hresp, if_pos hlt]
        constructor
        · intro e he
          exact ((ih _ _ _ _).1 e he).trans hth
        · intro code hc
          obtain ⟨pre, hpre, heq⟩ := (ih _ _ _ _).2 code hc
          exact ⟨pre, hpre.trans hth, heq⟩
      · simp only [requestLoop, hresp, if_neg hlt]
        exact ⟨fun e _ => hth, fun code hc => absurd hc (by simp)⟩
    | status code =>
      by_cases h429 : code = 429
      · rcases h4 : on429 { s with
            timestamps := (enforceThrottle s now).timestamps,
            requestCount := s.requestCount + 1 } (enforceThrottle s now).now
          with ⟨s2, e?⟩
        have hs2 : s2.timestamps = (enforceThrottle s now).timestamps := by
          have := on429_timestamps { s with
            timestamps := (enforceThrottle s now).timestamps,
            requestCount := s.requestCount + 1 } (enforceThrottle s now).now
          rw [h4] at this
          exact this
        cases e? with
        | some e =>
          simp only [requestLoop, hresp, if_pos h429, h4]
          exact ⟨fun e _ => hs2 ▸ hth, fun code hc => absurd hc (by simp)⟩
        | none =>
          by_cases hlt : attemptIdx < maxRetries
          · simp only [requestLoop, hresp, if_pos h429, h4, if_pos hlt]
            constructor
            · intro e he
              exact ((ih _ _ _ _).1 e he).trans (hs2 ▸ hth)
            · intro c hc
              obtain ⟨pre, hpre, heq⟩ := (ih _ _ _ _).2 c hc
              exact ⟨pre, hpre.trans (hs2 ▸ hth), heq⟩
          · simp only [requestLoop, hresp, if_pos h429, h4, if_neg hlt]
            exact ⟨fun e _ => hs2 ▸ hth, fun c hc => absurd hc (by simp)⟩
      · by_cases h5 : 500 ≤ code
        · by_cases hlt : attemptIdx < maxRetries
          · simp only [requestLoop, hresp, if_neg h429, if_pos h5, if_pos hlt]
            constructor
            · intro e he
              exact ((ih _ _ _ _).1 e he).trans hth
            · intro c hc
              obtain ⟨pre, hpre, heq⟩ := (ih _ _ _ _).2 c hc
              exact ⟨pre, hpre.trans hth, heq⟩
          · simp only [requestLoop, hresp, if_neg h429, if_pos h5, if_neg hlt]
            refine ⟨fun e he => absurd he (by simp), fun c hc => ⟨(enforceThrottle s now).timestamps, hth, ?_⟩⟩
            rfl
        · simp only [requestLoop, hresp, if_neg h429, if_neg h5]
          refine ⟨fun e he => absurd he (by simp), fun c hc => ⟨(enforceThrottle s now).timestamps, hth, ?_⟩⟩
          rfl

/-- Witness for C4 amended: an exhausted-timeout run leaves the window a
suffix of the original (here: unchanged and empty), and a plain 200 run
appends exactly the final clock. -/
theorem window_append_only_on_returned_response_witness :
    ((requestLoop (fun _ => AttemptOutcome.timeout) 0 10 0 1 initState 0
        []).state.timestamps).IsSuffix initState.timestamps
    ∧ ∃ pre, pre.IsSuffix initState.timestamps ∧
        (requestLoop (fun _ => AttemptOutcome.status 200) 0 10 0 1 initState 0
          []).state.timestamps
          = pre ++ [(requestLoop (fun _ => AttemptOutcome.status 200) 0 10 0 1 initState
              0 []).now] :=
  ⟨(window_append_only_on_returned_response (fun _ => AttemptOutcome.timeout) 0 10 1 0
      initState 0 []).1 .timeoutErr (by decide),
   (window_append_only_on_returned_response (fun _ => AttemptOutcome.status 200) 0 10 1 0
      initState 0 []).2 200 (by decide)⟩

/-- When no cooldown is active and the trimmed window is below the
threshold, `_enforce_throttle` sleeps not at all and only trims. -/
theorem enforceThrottle_no_sleep (s : ExecState) (now : ℤ)
    (hcd : ¬ now < s.cooldownUntil)
    (hlen : (s.timestamps.dropWhile (fun t => decide (t < now - RATE_WINDOW))).length
      < RATE_THRESHOLD) :
    enforceThrottle s now =
      ⟨now, s.timestamps.dropWhile (fun t => decide (t < now - RATE_WINDOW)), []⟩ := by
  simp only [enforceThrottle, if_neg hcd]
  rw [if_neg (by omega)]

/-- A `_request` against a backend answering 200 returns after one attempt:
throttle, the attempt event, `_on_success`. -/
theorem pyRequest_status200 (maxRetries : ℕ) (baseDelay : ℤ) (s : ExecState) (now : ℤ) :
    pyRequest (fun _ => .status 200) maxRetries baseDelay s now =
      ⟨.resp 200,
       onSuccess { s with timestamps := (enforceThrottle s now).timestamps,
                          requestCount := s.requestCount + 1 } (enforceThrottle s now).now,
       (enforceThrottle s now).now,
       (enforceThrottle s now).events ++ [Event.attempt 0]⟩ := by
  simp [pyRequest, requestLoop]

/-- Sequences of successes below the threshold never sleep: as long as the
window holds at most `RATE_THRESHOLD` entries counting the requests still to
come, every admission passes with no events but the attempts. -/
theorem runSuccessSeq_no_sleep (maxRetries : ℕ) (baseDelay : ℤ) :
    ∀ (times : List ℤ) (s : ExecState) (clock : ℤ),
      s.cooldownUntil ≤ clock →
      s.timestamps.length + times.length ≤ RATE_THRESHOLD →
      ((runSuccessSeq maxRetries baseDelay times s clock).2.2.filter Event.isSleep) = [] := by
  intro times
  induction times with
  | nil =>
    intro s clock _ _
    rfl
  | cons t rest ih =>
    intro s clock hcd hlen
    have htrim : (s.timestamps.dropWhile
          (fun x => decide (x < max t clock - RATE_WINDOW))).length
        ≤ s.timestamps.length :=
      (List.dropWhile_suffix _).sublist.length_le
    have hlen2 : s.timestamps.length < RATE_THRESHOLD := by
      simp only [List.length_cons] at hlen
      omega
    have hth : enforceThrottle s (max t clock) =
        ⟨max t clock,
         s.timestamps.dropWhile (fun x => decide (x < max t clock - RATE_WINDOW)), []⟩ :=
      enforceThrottle_no_sleep s (max t clock)
        (not_lt.mpr (le_max_of_le_right hcd))
        (lt_of_le_of_lt htrim hlen2)
    have hrun := pyRequest_status200 maxRetries baseDelay s (max t clock)
    rw [hth] at hrun
    simp only [runSuccessSeq, hrun]
    rcases hrec : runSuccessSeq maxRetries baseDelay rest
        (onSuccess { s with
          timestamps := s.timestamps.dropWhile (fun x => decide (x < max t clock - RATE_WINDOW)),
          requestCount := s.requestCount + 1 } (max t clock)) (max t clock)
      with ⟨s2, c2, evs⟩
    have hevs : evs.filter Event.isSleep = [] := by
      have := ih (onSuccess { s with
          timestamps := s.timestamps.dropWhile (fun x => decide (x < max t clock - RATE_WINDOW)),
          requestCount := s.requestCount + 1 } (max t clock)) (max t clock)
        (by simp only [onSuccess]; exact le_max_of_le_right hcd)
        (by
          simp only [onSuccess, List.length_append, List.length_cons,
            List.length_nil] at hlen ⊢
          omega)
      rw [hrec] at this
      exact this
    simp [hevs, Event.isSleep]

/-- C3 (amended): starting from a fresh client, any sequence of at most 90
successful requests is admitted with no throttling sleep at all — in
particular the 90th request, issued while 89 successes lie inside the
window, is not delayed (see the counterexample for the original claim).
The first request to find `RATE_THRESHOLD = 90` timestamps still inside the
60-second window — the 91st after 90 in-window successes — blocks until
the oldest timestamp ages out of the window plus the 0.1s (1 ds) margin. -/
theorem sliding_window_threshold_boundary (maxRetries : ℕ) (baseDelay : ℤ) :
    (∀ (times : List ℤ) (clock : ℤ), 0 ≤ clock → times.length ≤ RATE_THRESHOLD →
      ((runSuccessSeq maxRetries baseDelay times initState clock).2.2.filter
        Event.isSleep) = [])
    ∧ (∀ (t0 : ℤ) (rest : List ℤ) (s : ExecState) (now : ℤ),
        s.timestamps = t0 :: rest → (t0 :: rest).length = RATE_THRESHOLD →
        s.cooldownUntil ≤ now → ¬ t0 < now - RATE_WINDOW →
        (pyRequest (fun _ => .status 200) maxRetries baseDelay s now).events =
          [Event.sleep .window (t0 + RATE_WINDOW - now + 1), Event.attempt 0]) := by
  constructor
  · intro times clock hclock hlen
    exact runSuccessSeq_no_sleep maxRetries baseDelay times initState clock hclock
      (by simpa [initState] using hlen)
  · intro t0 rest s now hts hlen hcd hin
    have hdrop : s.timestamps.dropWhile (fun x => decide (x < now - RATE_WINDOW))
        = t0 :: rest := by
      rw [hts, List.dropWhile_cons]
      simp [hin]
    have hth : enforceThrottle s now =
        ⟨now + (t0 + RATE_WINDOW - now + 1), t0 :: rest,
         [Event.sleep .window (t0 + RATE_WINDOW - now + 1)]⟩ := by
      simp only [enforceThrottle, if_neg (not_lt.mpr hcd), hdrop]
      rw [if_pos (by omega : RATE_THRESHOLD ≤ (t0 :: rest).length)]
      simp only [List.headI]
      rw [if_pos (by unfold RATE_WINDOW at hin ⊢; omega)]
      rfl
    rw [pyRequest_status200, hth]
    rfl

/-- C3 counterexample: ninety successful requests all issued at one instant
from a fresh client — so each of them, the 90th included (issued while 89
successes lie inside the 60-second window), is admitted without any
blocking wait, contradicting the claim that the 90th triggers one. -/
theorem ninetieth_request_admitted_without_wait :
    ((runSuccessSeq 3 10 (List.replicate 90 (0:ℤ)) initState 0).2.2.filter
      Event.isSleep) = []
    ∧ (runSuccessSeq 3 10 (List.replicate 90 (0:ℤ)) initState 0).1.timestamps.length
      = 90 := by
  decide

/-- Witness for C3 amended: 90 instantaneous successes sleep not at all;
with 90 zero-timestamps in the window, a request at time 30 (3.0s) blocks
for `0 + 600 - 30 + 1` ds (57.1s), until the oldest entry ages out plus the
margin. -/
theorem sliding_window_threshold_boundary_witness :
    ((runSuccessSeq 3 10 (List.replicate 90 (0:ℤ)) initState 0).2.2.filter
      Event.isSleep) = []
    ∧ (pyRequest (fun _ => .status 200) 3 10
        ⟨90, 0 :: List.replicate 89 (0:ℤ), 0, 0⟩ 30).events =
      [Event.sleep .window (0 + RATE_WINDOW - 30 + 1), Event.attempt 0] :=
  ⟨(sliding_window_threshold_boundary 3 10).1 (List.replicate 90 (0:ℤ)) 0 (by decide)
      (by decide),
   (sliding_window_threshold_boundary 3 10).2 0 (List.replicate 89 (0:ℤ))
      ⟨90, 0 :: List.replicate 89 (0:ℤ), 0, 0⟩ 30 rfl (by decide) (by decide)
      (by decide)⟩

/-- The delivered-keys invariant transports along a state change that leaves
`emitted` and `seen` untouched. -/
theorem emitted_inv_of_eq {ρ κ : Type} (keyOf : ρ → κ) {st st' : CollectState ρ κ}
    (hem : st'.emitted = st.emitted) (hseen : st'.seen = st.seen)
    (h1 : (emittedKeys keyOf st).Nodup)
    (h2 : ∀ k ∈ emittedKeys keyOf st, k ∈ st.seen) :
    (emittedKeys keyOf st').Nodup ∧ ∀ k ∈ emittedKeys keyOf st', k ∈ st'.seen := by
  have he : emittedKeys keyOf st' = emittedKeys keyOf st := by
    unfold emittedKeys
    rw [hem]
  rw [he, hseen]
  exact ⟨h1, h2⟩

/-- The delivered-keys invariant survives a productive page: the newly
delivered records are exactly the page filtered against `seen`, their keys
are distinct (the page's keys being distinct), they are disjoint from
everything delivered before (which already sits in `seen`), and they join
`seen`. -/
theorem emitted_inv_extend {ρ κ : Type} [DecidableEq κ] (keyOf : ρ → κ)
    {st st' : CollectState ρ κ} (records : List ρ)
    (hrec : (records.map keyOf).Nodup)
    (hem : st'.emitted = st.emitted ++
      [(st.page + 1, records.filter (fun r => decide (keyOf r ∉ st.seen)))])
    (hseen : st'.seen = st.seen ++
      (records.filter (fun r => decide (keyOf r ∉ st.seen))).map keyOf)
    (h1 : (emittedKeys keyOf st).Nodup)
    (h2 : ∀ k ∈ emittedKeys keyOf st, k ∈ st.seen) :
    (emittedKeys keyOf st').Nodup ∧ ∀ k ∈ emittedKeys keyOf st', k ∈ st'.seen := by
  have he : emittedKeys keyOf st' = emittedKeys keyOf st ++
      (records.filter (fun r => decide (keyOf r ∉ st.seen))).map keyOf := by
    unfold emittedKeys
    rw [hem]
    simp
  have hnewnodup :
      ((records.filter (fun r => decide (keyOf r ∉ st.seen))).map keyOf).Nodup :=
    hrec.sublist ((List.filter_sublist records).map keyOf)
  have hdisj : (emittedKeys keyOf st).Disjoint
      ((records.filter (fun r => decide (keyOf r ∉ st.seen))).map keyOf) := by
    intro k hk1 hk2
    obtain ⟨r, hr, rfl⟩ := List.mem_map.mp hk2
    have hfr := List.of_mem_filter hr
    simp only [decide_eq_true_eq] at hfr
    exact hfr (h2 _ hk1)
  refine ⟨?_, ?_⟩
  · rw [he]
    exact h1.append hnewnodup hdisj
  · intro k hk
    rw [he] at hk
    rw [hseen]
    rcases List.mem_append.mp hk with hk | hk
    · exact List.mem_append_left _ (h2 k hk)
    · exact List.mem_append_right _ hk

/-- One collector iteration preserves the delivered-keys invariant,
provided the fetched page (when the fetch succeeded) has pairwise-distinct
keys. -/
theorem streamStep_emitted_invariant {ρ κ : Type} [DecidableEq κ] (keyOf : ρ → κ)
    (emptyNudge jumpBound pageSize : ℕ) (rand : ℕ → ℕ)
    (targetCount maxStalePages : ℕ)
    (fr : Except ReqError (List ρ)) (st : CollectState ρ κ)
    (hok : ∀ page, fr = .ok page → (page.map keyOf).Nodup)
    (h1 : (emittedKeys keyOf st).Nodup)
    (h2 : ∀ k ∈ emittedKeys keyOf st, k ∈ st.seen) :
    (emittedKeys keyOf (streamStep keyOf emptyNudge jumpBound pageSize rand targetCount
        maxStalePages fr st).state).Nodup
    ∧ ∀ k ∈ emittedKeys keyOf (streamStep keyOf emptyNudge jumpBound pageSize rand
        targetCount maxStalePages fr st).state,
        k ∈ (streamStep keyOf emptyNudge jumpBound pageSize rand targetCount
          maxStalePages fr st).state.seen := by
  cases fr with
  | error e =>
    simp only [streamStep, StepOut.state]
    split_ifs <;> exact emitted_inv_of_eq keyOf rfl rfl h1 h2
  | ok records =>
    simp only [streamStep, StepOut.state]
    by_cases hemp : records.isEmpty = true
    · rw [if_pos hemp]
      split_ifs <;> exact emitted_inv_of_eq keyOf rfl rfl h1 h2
    · rw [if_neg hemp]
      by_cases hnew :
          (records.filter (fun r => decide (keyOf r ∉ st.seen))).isEmpty = true
      · rw [if_pos hnew]
        split_ifs <;> exact emitted_inv_of_eq keyOf rfl rfl h1 h2
      · rw [if_neg hnew]
        split_ifs <;>
          exact @emitted_inv_extend ρ κ _ keyOf st _ records (hok records rfl) rfl rfl
            h1 h2

/-- The whole-run version of the invariant: a completed `streamLoop` run
starting from a state satisfying the delivered-keys invariant ends in one. -/
theorem streamLoop_emitted_nodup {ρ κ : Type} [DecidableEq κ] (keyOf : ρ → κ)
    (emptyNudge jumpBound pageSize : ℕ)
    (fetch : ℕ → ℕ → Except ReqError (List ρ)) (rand : ℕ → ℕ)
    (targetCount maxStalePages : ℕ)
    (hpages : ∀ i off page, fetch i off = .ok page → (page.map keyOf).Nodup) :
    ∀ (fuel callIdx : ℕ) (st st' : CollectState ρ κ),
      (emittedKeys keyOf st).Nodup →
      (∀ k ∈ emittedKeys keyOf st, k ∈ st.seen) →
      streamLoop keyOf emptyNudge jumpBound pageSize fetch rand targetCount
        maxStalePages fuel callIdx st = some st' →
      (emittedKeys keyOf st').Nodup := by
  intro fuel
  induction fuel with
  | zero =>
    intro callIdx st st' _ _ h
    exact absurd h (by simp [streamLoop])
  | succ n ih =>
    intro callIdx st st' h1 h2 hrun
    have hstep := streamStep_emitted_invariant keyOf emptyNudge jumpBound pageSize rand
      targetCount maxStalePages (fetch callIdx st.offset) st
      (fun page hp => hpages _ _ page hp) h1 h2
    simp only [streamLoop] at hrun
    cases hs : streamStep keyOf emptyNudge jumpBound pageSize rand targetCount
        maxStalePages (fetch callIdx st.offset) st with
    | stop st2 =>
      rw [hs] at hrun hstep
      cases hrun
      exact hstep.1
    | next st2 =>
      rw [hs] at hrun hstep
      exact ih (callIdx + 1) st2 st' hstep.1 hstep.2 hrun

/-- C1 amended: in both streaming collectors, if every page the backend
successfully returns has pairwise-distinct identity keys, then a given
identity key is delivered to the per-page callback at most once per run
(the concatenated delivery log of a completed run has no duplicate key).
The restriction to internally duplicate-free pages is necessary: a page
carrying the same key twice is delivered with both occurrences, because the
page is filtered against the seen-set before the seen-set is updated (see
the counterexample). -/
theorem streaming_key_delivered_at_most_once {ρ κ : Type} [DecidableEq κ]
    (keyOf : ρ → κ) (fetch : ℕ → ℕ → Except ReqError (List ρ)) (rand : ℕ → ℕ)
    (targetCount maxStalePages fuel : ℕ) (st' : CollectState ρ κ)
    (hpages : ∀ i off page, fetch i off = .ok page → (page.map keyOf).Nodup) :
    (fetch_submolts_streaming keyOf fetch rand targetCount maxStalePages fuel
        = some st' → (emittedKeys keyOf st').Nodup)
    ∧ (fetch_posts_streaming keyOf fetch rand targetCount maxStalePages fuel
        = some st' → (emittedKeys keyOf st').Nodup) := by
  constructor
  · intro h
    exact streamLoop_emitted_nodup keyOf 1000 20000 100 fetch rand targetCount
      maxStalePages hpages fuel 0 initCollect st' (by simp [emittedKeys, initCollect])
      (by simp [emittedKeys, initCollect]) h
  · intro h
    exact streamLoop_emitted_nodup keyOf 500 100000 100 fetch rand targetCount
      maxStalePages hpages fuel 0 initCollect st' (by simp [emittedKeys, initCollect])
      (by simp [emittedKeys, initCollect]) h

/-- C1 counterexample: a backend page containing the same identity key twice
is delivered with both occurrences in a single `on_page` call — the key is
delivered twice in one run (the new-record filter runs against `seen` before
`seen` is updated), so a key can be delivered to the callback more than once
per run. -/
theorem in_page_duplicate_key_delivered_twice :
    (fetch_submolts_streaming (id : ℕ → ℕ) (fun _ _ => .ok [5, 5]) (fun _ => 0)
        0 1 2).map (emittedKeys id) = some [5, 5]
    ∧ ¬ ([5, 5] : List ℕ).Nodup := by
  decide

/-- Witness for C1 amended: a single-record backend run completes and its
delivery log `[7]` is duplicate-free. -/
theorem streaming_key_delivered_at_most_once_witness :
    (emittedKeys (id : ℕ → ℕ) ⟨1, 100, 1, [7], 1, 0, 0, [(1, [7])]⟩).Nodup :=
  (streaming_key_delivered_at_most_once (id : ℕ → ℕ) (fun _ _ => .ok [7])
      (fun _ => 0) 0 1 2 ⟨1, 100, 1, [7], 1, 0, 0, [(1, [7])]⟩
      (fun i off page hp => by
        injection hp with h
        rw [← h]
        decide)).1
    (by decide)

/-- Once every key of the constant page is already in `seen`, each further
iteration contributes zero new records (a stale page); within the remaining
stale budget the loop breaks with the total unchanged. -/
theorem streamLoop_constant_stale {ρ κ : Type} [DecidableEq κ] (keyOf : ρ → κ)
    (emptyNudge jumpBound pageSize : ℕ) (page : List ρ) (rand : ℕ → ℕ)
    (targetCount maxStalePages : ℕ) (hne : page.isEmpty = false) :
    ∀ (fuel callIdx : ℕ) (st : CollectState ρ κ),
      (∀ r ∈ page, keyOf r ∈ st.seen) →
      maxStalePages ≤ st.stalePages + fuel →
      st.stalePages < maxStalePages →
      (streamLoop keyOf emptyNudge jumpBound pageSize (fun _ _ => .ok page) rand
          targetCount maxStalePages fuel callIdx st).map CollectState.total
        = some st.total := by
  intro fuel
  induction fuel with
  | zero =>
    intro callIdx st _ hle hlt
    omega
  | succ n ih =>
    intro callIdx st hseen hle hlt
    have hlenpos : 0 < page.length := by
      cases page with
      | nil => simp at hne
      | cons a l => simp
    have hnew : page.filter (fun r => decide (keyOf r ∉ st.seen)) = [] :=
      List.filter_eq_nil_iff.mpr (fun r hr => by simp [hseen r hr])
    simp only [streamLoop, streamStep]
    rw [if_neg (by simp [hne] : ¬ page.isEmpty = true), hnew]
    rw [if_pos (List.isEmpty_nil (α := ρ))]
    by_cases htc : 0 < targetCount ∧ targetCount ≤ st.total
    · rw [if_pos htc]
      rfl
    · rw [if_neg htc]
      by_cases hstale : maxStalePages ≤ st.stalePages + 1
      · rw [if_pos hstale]
        rfl
      · rw [if_neg hstale]
        rw [if_pos (by simp [hlenpos] : 2 * ([] : List ρ).length < page.length)]
        exact ih (callIdx + 1) _ hseen (show maxStalePages ≤ st.stalePages + 1 + n by
          omega) (show st.stalePages + 1 < maxStalePages by omega)

/-- C9: a streaming collector fed a backend that returns the same fixed page
of 100 distinct-keyed records at every offset terminates — fuel for
`maxStalePages + 1` loop iterations (the productive first page plus at most
`maxStalePages` further stale pages) already completes the run, for every
target count, stale budget and random stream — and its total equals 100,
the number of distinct keys of the fixed set. -/
theorem constant_backend_run_total {ρ κ : Type} [DecidableEq κ] (keyOf : ρ → κ)
    (page : List ρ) (rand : ℕ → ℕ) (targetCount maxStalePages : ℕ)
    (hne : page.isEmpty = false) (hnodup : (page.map keyOf).Nodup)
    (hlen : page.length = 100) :
    (fetch_submolts_streaming keyOf (fun _ _ => .ok page) rand targetCount
        maxStalePages (maxStalePages + 1)).map CollectState.total = some 100
    ∧ (page.map keyOf).dedup.length = 100 := by
  have hlenpos : 0 < page.length := by
    cases page with
    | nil => simp at hne
    | cons a l => simp
  constructor
  swap
  · rw [hnodup.dedup, List.length_map, hlen]
  unfold fetch_submolts_streaming
  have hfilter : page.filter
      (fun r => decide (keyOf r ∉ (initCollect : CollectState ρ κ).seen)) = page :=
    List.filter_eq_self.mpr (fun r _ => by simp [initCollect])
  simp only [streamLoop, streamStep, initCollect]
  rw [if_neg (by simp [hne] : ¬ page.isEmpty = true)]
  rw [show page.filter (fun r => decide (keyOf r ∉ ([] : List κ))) = page from
    List.filter_eq_self.mpr (fun r _ => by simp)]
  rw [if_neg (by simp [hne] : ¬ page.isEmpty = true)]
  by_cases htc : 0 < targetCount ∧ targetCount ≤ 0 + page.length
  · rw [if_pos htc]
    simp [hlen]
  · rw [if_neg htc]
    by_cases hstale : maxStalePages ≤ 0
    · rw [if_pos hstale]
      simp [hlen]
    · rw [if_neg hstale]
      rw [if_neg (by omega : ¬ 2 * page.length < page.length)]
      rw [streamLoop_constant_stale keyOf 1000 20000 100 page rand targetCount
        maxStalePages hne maxStalePages 1 _
        (fun r hr => by simp [List.mem_map_of_mem keyOf hr])
        (show maxStalePages ≤ 0 + maxStalePages by omega) (show (0:ℕ) < maxStalePages by omega)]
      simp [hlen]

/-- Witness for C9: the fixed page `0,...,99` with identity keys, an
arbitrary constant random stream, no target count and stale budget 2: the
run completes with fuel 3 and total 100. -/
theorem constant_backend_run_total_witness :
    (fetch_submolts_streaming (id : ℕ → ℕ) (fun _ _ => .ok (List.range 100))
        (fun _ => 0) 0 2 (2 + 1)).map CollectState.total = some 100
    ∧ ((List.range 100).map (id : ℕ → ℕ)).dedup.length = 100 :=
  constant_backend_run_total (id : ℕ → ℕ) (List.range 100) (fun _ => 0) 0 2
    (by decide) (by decide) (by decide)

end Moltbook
